import Mathlib

/-!
Shallow embedding of the LLm-Linter command-line tool
(src/config.py, src/analyzer.py, src/gemini_client.py, src/main.py).

The filesystem is modelled as an explicit tree of directories and files,
each file carrying the outcome of attempting to open and decode it.
The remote Gemini endpoint is modelled as an explicit outcome value.
Python strings are modelled as Lean strings; byte sizes use UTF-8 lengths.
-/

namespace LlmLinter

/-- Python str whitespace for strip, restricted to the ASCII whitespace
characters (space, tab, newline, carriage return, vertical tab, form feed). -/
def pyWhitespaceChar (c : Char) : Bool :=
  c = ' ' || c = '\t' || c = '\n' || c = '\x0d' || c = '\x0b' || c = '\x0c'

/-- Python str.strip(): remove leading and trailing whitespace. -/
def pyStrip (s : String) : String :=
  String.mk (((s.data.dropWhile pyWhitespaceChar).reverse.dropWhile pyWhitespaceChar).reverse)

/-- Python str.lower(), for the ASCII range (all uses in the source are ASCII). -/
def pyLower (s : String) : String :=
  String.mk (s.data.map Char.toLower)

/-- Python str.upper(), for the ASCII range (all uses in the source are ASCII). -/
def pyUpper (s : String) : String :=
  String.mk (s.data.map Char.toUpper)

/-- Python len(s.encode(utf-8)): the UTF-8 byte length of a string. -/
def utf8Len (s : String) : Nat :=
  s.data.foldl (fun n c => n + c.utf8Size) 0

/-- Helper for Python substring containment: does pat occur inside hay. -/
def containsSub (pat : List Char) : List Char → Bool
  | [] => pat.isEmpty
  | c :: t => pat.isPrefixOf (c :: t) || containsSub pat t

/-- Python membership test pat in s on strings. -/
def strContains (s pat : String) : Bool :=
  containsSub pat.data s.data

/-- A pathlib-style path: an anchor flag and the list of components after the
anchor (pathlib drops bare dot components, so the current directory is the
empty component list with absolute = false). -/
structure PyPath where
  absolute : Bool
  comps : List String
deriving DecidableEq, Repr

/-- pathlib / operator: Path(p) / name appends one component. -/
def pushPath (p : PyPath) (name : String) : PyPath :=
  ⟨p.absolute, p.comps ++ [name]⟩

/-- path.relative_to(path.parents[-1]): pathlib's parents[-1] is the anchor
(slash for an absolute path, dot for a relative one), so the result is the
component list joined with slashes. -/
def pyRelTopParent (p : PyPath) : String :=
  String.intercalate "/" p.comps

/-- pathlib Path.name: the final component (empty for the bare anchor). -/
def pathName (p : PyPath) : String :=
  (p.comps.getLast?).getD ""

/-- Index of the last dot in a character list, as Python str.rfind. -/
def rfindDot : List Char → Option Nat
  | [] => none
  | c :: rest =>
    match rfindDot rest with
    | some i => some (i + 1)
    | none => if c = '.' then some 0 else none

/-- pathlib Path.suffix on a file name: the part from the last dot,
provided that dot is neither the first nor the last character. -/
def pySuffix (name : String) : String :=
  match rfindDot name.data with
  | some i =>
    if 0 < i ∧ i < name.data.length - 1 then String.mk (name.data.drop i) else ""
  | none => ""

/-- file_path.suffix for a modelled path. -/
def pathSuffix (p : PyPath) : String :=
  pySuffix (pathName p)

/-- CodeAnalyzer.SUPPORTED_EXTENSIONS (membership-only set in the source). -/
def SUPPORTED_EXTENSIONS : List String :=
  [".py", ".js", ".ts", ".jsx", ".tsx", ".go", ".java", ".cs", ".cpp", ".c",
   ".rb", ".rs", ".php", ".kt", ".swift", ".scala"]

/-- CodeAnalyzer.IGNORED_DIRECTORIES (membership-only set in the source). -/
def IGNORED_DIRECTORIES : List String :=
  ["__pycache__", ".venv", "venv", ".env", ".git", "node_modules", ".next",
   "dist", "build", "target", ".gradle", ".idea", ".vscode", ".pytest_cache",
   ".mypy_cache", ".tox", "htmlcov", ".coverage", ".DS_Store"]

/-- Outcome of open(file).read() with utf-8 decoding: the decoded text, or
one of the two exceptions CodeAnalyzer._read_file_content lets escape. -/
inductive ReadResult where
  | ok (content : String)
  | permissionDenied
  | decodeFailure
deriving DecidableEq, Repr

/-- A candidate file: its path plus what reading it yields. -/
structure FileEntry where
  path : PyPath
  read : ReadResult
deriving DecidableEq, Repr

mutual

/-- A directory tree as os.walk sees it: each node lists its subdirectories
and its plain files (with the outcome of reading each), both in scandir
order. The mutual shape gives structural recursion over the nesting. -/
inductive FSTree where
  | node (dirs : DirList) (files : List (String × ReadResult))

/-- The subdirectory list of a node, as a mutual inductive. -/
inductive DirList where
  | nil
  | cons (name : String) (tree : FSTree) (rest : DirList)

end

/-- CodeAnalyzer._read_file_content: returns the decoded content, replaced by
the empty string when its UTF-8 byte length exceeds 1 MiB; none models a
PermissionError or UnicodeDecodeError propagating to the caller. -/
def readFileContent : ReadResult → Option String
  | .ok content => some (if utf8Len content > 1024 * 1024 then "" else content)
  | .permissionDenied => none
  | .decodeFailure => none

mutual

/-- CodeAnalyzer._find_source_files via os.walk: at each node, collect the
files of the current directory whose lowercased suffix is a supported
extension, then descend into the non-ignored subdirectories in order. -/
def findTree (root : PyPath) : FSTree → List FileEntry
  | .node dirs files =>
    (files.filterMap fun nf =>
      if SUPPORTED_EXTENSIONS.contains (pyLower (pySuffix nf.1))
      then some ⟨pushPath root nf.1, nf.2⟩ else none)
    ++ findDirs root dirs

/-- The dirs loop of os.walk after pruning ignored directory names. -/
def findDirs (root : PyPath) : DirList → List FileEntry
  | .nil => []
  | .cons name tree rest =>
    if IGNORED_DIRECTORIES.contains name then findDirs root rest
    else findTree (pushPath root name) tree ++ findDirs root rest

end

/-- The language_map dict in CodeAnalyzer._get_language_from_extension. -/
def languageMap : List (String × String) :=
  [(".py", "Python"), (".js", "JavaScript"), (".jsx", "React JavaScript"),
   (".ts", "TypeScript"), (".tsx", "React TypeScript"), (".go", "Go"),
   (".java", "Java"), (".cs", "C#"), (".cpp", "C++"), (".c", "C"),
   (".rb", "Ruby"), (".rs", "Rust"), (".php", "PHP"), (".kt", "Kotlin"),
   (".swift", "Swift"), (".scala", "Scala")]

/-- CodeAnalyzer._get_language_from_extension: dict lookup on the lowered
extension, defaulting to Unknown. -/
def getLanguageFromExtension (extension : String) : String :=
  ((languageMap.lookup (pyLower extension)).getD "Unknown")

/-- Eighty equals signs, as produced by the repetition in the source. -/
def delim80 : String := String.mk (List.replicate 80 '=')

/-- The per-file header built in CodeAnalyzer._aggregate_file_contents. -/
def fileHeader (relativePath language : String) : String :=
  "\n" ++ delim80 ++ "\n" ++ "FILE: " ++ relativePath ++ "\n" ++
  "LANGUAGE: " ++ language ++ "\n" ++ delim80 ++ "\n\n"

/-- The two counters living on the CodeAnalyzer instance. -/
structure AnalyzerState where
  filesAnalyzed : Nat
  totalSize : Nat
deriving DecidableEq, Repr

/-- The loop of CodeAnalyzer._aggregate_file_contents: builds the list of
header-plus-content parts in order and threads the instance counters.
A none read (a caught PermissionError or UnicodeDecodeError) and an empty
content both skip the file. -/
def aggregateParts (st : AnalyzerState) : List FileEntry → List String × AnalyzerState
  | [] => ([], st)
  | f :: rest =>
    match readFileContent f.read with
    | none => aggregateParts st rest
    | some content =>
      if content = "" then aggregateParts st rest
      else
        let block :=
          fileHeader (pyRelTopParent f.path)
            (getLanguageFromExtension (pathSuffix f.path)) ++ content
        let tail := aggregateParts
          ⟨st.filesAnalyzed + 1, st.totalSize + utf8Len content⟩ rest
        (block :: tail.1, tail.2)

/-- CodeAnalyzer._aggregate_file_contents: the parts joined with a single
newline, together with the updated counters. -/
def aggregateFileContents (st : AnalyzerState) (files : List FileEntry) :
    String × AnalyzerState :=
  let r := aggregateParts st files
  (String.intercalate "\n" r.1, r.2)

/-- Whether the argument directory exists and is a directory, and its tree. -/
inductive DirStatus where
  | missing
  | notDirectory
  | dir (tree : FSTree)

/-- CodeAnalyzer.analyze_codebase: checks the directory, finds source files,
returns the empty string (counters untouched) when none are found, and
otherwise aggregates; an error models the raised exception. -/
def analyzeCodebase (st : AnalyzerState) (root : PyPath) :
    DirStatus → Except String (String × AnalyzerState)
  | .missing => .error "FileNotFoundError: directory does not exist"
  | .notDirectory => .error "ValueError: not a directory"
  | .dir tree =>
    let sourceFiles := findTree root tree
    if sourceFiles.isEmpty then .ok ("", st)
    else .ok (aggregateFileContents st sourceFiles)

/-- The fixed message returned when the aggregated text is blank. -/
def noContentMsg : String := "❌ No code content provided for analysis."

/-- The fixed message for a falsy response or falsy response text. -/
def noResponseMsg : String := "❌ No response received from Gemini API."

/-- The base error message prefix in the except branch of get_suggestions. -/
def apiErrorPrefixMsg : String := "❌ Error communicating with Gemini API: "

/-- Troubleshooting hint appended when the error text contains API_KEY. -/
def apiKeyHint : String :=
  "\n💡 Make sure your GEMINI_API_KEY is set correctly in the .env file."

/-- Troubleshooting hint appended when the error text contains quota. -/
def quotaHint : String :=
  "\n💡 You may have exceeded your API quota. Check your Google AI Studio dashboard."

/-- Troubleshooting hint appended when the error text contains network. -/
def networkHint : String :=
  "\n💡 Check your internet connection and try again."

/-- GeminiClient._build_analysis_prompt. -/
def buildAnalysisPrompt (codeContext : String) : String :=
  "Codebase: " ++ codeContext

/-- GeminiClient._format_response: banner header, stripped response text,
banner footer. -/
def formatResponse (responseText : String) : String :=
  "\n" ++ delim80 ++ "\n" ++ "🎯 CODE ANALYSIS RESULTS\n" ++ delim80 ++ "\n\n" ++
  pyStrip responseText ++ "\n\n" ++ delim80 ++ "\n" ++
  "✨ Analysis powered by Google Gemini AI\n" ++ delim80 ++ "\n"

/-- Outcome of the generate_content call: a response object whose text field
may be absent or empty, a falsy response, or a raised exception with its
str(e) text. -/
inductive ApiResponse where
  | resp (text : Option String)
  | noResp
  | raised (msg : String)
deriving DecidableEq, Repr

/-- GeminiClient.get_suggestions, instrumented with the number of
generate_content calls performed (0 or 1). Mirrors the source: the blank
check short-circuits before any call; a truthy response text is banner
wrapped; anything else becomes a fixed or keyword-hinted error string.
Total by construction: every path returns a string. -/
def getSuggestionsCalls (codeContext : String) (outcome : ApiResponse) :
    String × Nat :=
  if pyStrip codeContext = "" then (noContentMsg, 0)
  else
    match outcome with
    | .resp (some s) =>
      if s = "" then (noResponseMsg, 1) else (formatResponse s, 1)
    | .resp none => (noResponseMsg, 1)
    | .noResp => (noResponseMsg, 1)
    | .raised msg =>
      let base := apiErrorPrefixMsg ++ msg
      if strContains (pyUpper msg) "API_KEY" then (base ++ apiKeyHint, 1)
      else if strContains (pyLower msg) "quota" then (base ++ quotaHint, 1)
      else if strContains (pyLower msg) "network" then (base ++ networkHint, 1)
      else (base, 1)

/-- The string GeminiClient.get_suggestions returns. -/
def getSuggestions (codeContext : String) (outcome : ApiResponse) : String :=
  (getSuggestionsCalls codeContext outcome).1

/-- Fifty equals signs, as produced by the repetition in main.py. -/
def delim50 : String := String.mk (List.replicate 50 '=')

/-- The indentation the triple-quoted f-string in main.py carries on each
continuation line (24 spaces). -/
def reportIndent : String := String.mk (List.replicate 24 ' ')

/-- The report file content built in CodingAssistant._save_suggestions_to_file,
with the generation timestamp as a parameter. -/
def reportContent (genTimestamp dirPath suggestions : String) : String :=
  "Coding Assistant Analysis Report\n" ++
  reportIndent ++ delim50 ++ "\n" ++
  reportIndent ++ "Generated: " ++ genTimestamp ++ "\n" ++
  reportIndent ++ "Analyzed Directory: " ++ dirPath ++ "\n" ++
  reportIndent ++ delim50 ++ "\n\n" ++
  reportIndent ++ suggestions ++ "\n\n" ++
  reportIndent ++ delim50 ++ "\n" ++
  reportIndent ++ "End of Analysis Report\n" ++
  reportIndent

/-- Whether the attempt to create the output directory and write the report
file succeeds, or raises with the given message. -/
inductive SaveOutcome where
  | writeOk
  | writeFailed (msg : String)
deriving DecidableEq, Repr

/-- CodingAssistant._save_suggestions_to_file: on success the report content
is written; any exception is caught and turned into a printed warning.
Returns the written file content (if any) and the warning lines. -/
def saveSuggestionsToFile (suggestions dirPath genTimestamp : String) :
    SaveOutcome → Option String × List String
  | .writeOk => (some (reportContent genTimestamp dirPath suggestions), [])
  | .writeFailed m => (none, [" Warning: Could not save analysis to file: " ++ m])

/-- The environment a run of CodingAssistant.run faces: whether the API key
loads, whether the validation call succeeds, the state of the target
directory, the outcome of the analysis call, and the outcome of writing
the report. -/
structure RunEnv where
  apiKeyOk : Bool
  apiValid : Bool
  status : DirStatus
  response : ApiResponse
  save : SaveOutcome
  genTimestamp : String

/-- CodingAssistant.run: environment validation, scan, analyze, save, in
sequence; returns the exit code and the report content written (if any).
A raised analyzer exception is caught by the outer except and returns 1. -/
def runApp (st : AnalyzerState) (root : PyPath) (dirPath : String)
    (env : RunEnv) : Nat × Option String :=
  if !env.apiKeyOk then (1, none)
  else if !env.apiValid then (1, none)
  else
    match analyzeCodebase st root env.status with
    | .error _ => (1, none)
    | .ok (codeContext, _) =>
      if codeContext = "" then (1, none)
      else
        let suggestions := getSuggestions codeContext env.response
        let saved := saveSuggestionsToFile suggestions dirPath
          env.genTimestamp env.save
        (0, saved.1)

/-- Config._get_gemini_api_key: the argument is os.getenv GEMINI_API_KEY.
A missing variable or the empty string raises ValueError; any other value
is returned stripped. -/
def getGeminiApiKey : Option String → Except String String
  | none => .error "GEMINI_API_KEY not found in environment variables."
  | some k =>
    if k = "" then .error "GEMINI_API_KEY not found in environment variables."
    else .ok (pyStrip k)

/-- The content a successful read carries (empty for the failure cases,
which the hypotheses of the theorems using it rule out). -/
def okContent : ReadResult → String
  | .ok c => c
  | .permissionDenied => ""
  | .decodeFailure => ""

/-- The per-file block exactly as the spec wire-format section words it:
newline, eighty equals signs, the FILE and LANGUAGE labels, eighty equals
signs, a blank line, then the raw content. -/
def specBlock (f : FileEntry) : String :=
  "\n" ++ delim80 ++ "\nFILE: " ++ pyRelTopParent f.path ++ "\nLANGUAGE: " ++
  getLanguageFromExtension (pathSuffix f.path) ++ "\n" ++ delim80 ++ "\n\n" ++
  okContent f.read

/-- Decidable equality for Except results, used to state concrete runs. -/
instance {e a : Type} [DecidableEq e] [DecidableEq a] : DecidableEq (Except e a) := fun x y =>
  match x, y with
  | .error u, .error v =>
    if h : u = v then .isTrue (by rw [h]) else .isFalse (fun hh => h (Except.error.inj hh))
  | .ok u, .ok v =>
    if h : u = v then .isTrue (by rw [h]) else .isFalse (fun hh => h (Except.ok.inj hh))
  | .error _, .ok _ => .isFalse (fun hh => Except.noConfusion hh)
  | .ok _, .error _ => .isFalse (fun hh => Except.noConfusion hh)

example : pySuffix "a.py" = ".py" := by decide

example : pySuffix ".env" = "" := by decide

example : pySuffix "a." = "" := by decide

example : pySuffix "a.tar.gz" = ".gz" := by decide

example : pyStrip "  hi \t\n" = "hi" := by decide

example : strContains "hello quota here" "quota" = true := by decide

example : strContains "hello" "quota" = false := by decide

/-- The header-plus-content value built in the loop agrees with the block
format as the spec tokenizes it. -/
theorem specBlock_eq_header_content (f : FileEntry) (c : String)
    (hr : f.read = .ok c) :
    specBlock f =
      fileHeader (pyRelTopParent f.path)
        (getLanguageFromExtension (pathSuffix f.path)) ++ c := by
  have e1 : ("\nFILE: " : String) = "\n" ++ "FILE: " := by decide
  have e2 : ("\nLANGUAGE: " : String) = "\n" ++ "LANGUAGE: " := by decide
  simp only [specBlock, fileHeader, hr, okContent, e1, e2]
  apply String.ext
  simp [String.data_append, List.append_assoc]

/-- A read that decodes, stays within the size ceiling is returned as is. -/
theorem readFileContent_small (f : FileEntry) (c : String)
    (hr : f.read = .ok c) (hle : utf8Len c ≤ 1024 * 1024) :
    readFileContent f.read = some c := by
  rw [hr]
  simp [readFileContent, Nat.not_lt.mpr hle]

/-- When every file decodes, is non-empty and stays within the size ceiling,
the parts list is exactly the per-file blocks, whatever the counters are. -/
theorem aggregateParts_eq_map (files : List FileEntry)
    (hall : ∀ f ∈ files, ∃ c, f.read = .ok c ∧ c ≠ "" ∧ utf8Len c ≤ 1024 * 1024) :
    ∀ st : AnalyzerState, (aggregateParts st files).1 = files.map specBlock := by
  induction files with
  | nil => intro st; simp [aggregateParts]
  | cons f rest ih =>
    intro st
    obtain ⟨c, hr, hc, hle⟩ := hall f (List.mem_cons_self f rest)
    have hrest : ∀ g ∈ rest, ∃ c, g.read = .ok c ∧ c ≠ "" ∧ utf8Len c ≤ 1024 * 1024 :=
      fun g hg => hall g (List.mem_cons_of_mem f hg)
    rw [aggregateParts, readFileContent_small f c hr hle]
    simp only [hc, if_neg, ite_false]
    rw [List.map_cons, ← specBlock_eq_header_content f c hr, ih hrest]

/-- The parts list is independent of the initial counter values. -/
theorem aggregateParts_fst_state (files : List FileEntry) :
    ∀ st1 st2 : AnalyzerState,
      (aggregateParts st1 files).1 = (aggregateParts st2 files).1 := by
  induction files with
  | nil => intro st1 st2; simp [aggregateParts]
  | cons f rest ih =>
    intro st1 st2
    rw [aggregateParts, aggregateParts]
    match hrf : readFileContent f.read with
    | none => exact ih st1 st2
    | some content =>
      by_cases hc : content = ""
      · simp [hc, ih st1 st2]
      · simp only [hc, ite_false, if_neg]
        simp only [List.cons.injEq, true_and]
        exact ih _ _

/-- C1: for every non-empty list of included files (each readable, non-empty
and within the 1 MiB ceiling), the aggregated text is exactly the per-file
blocks of the spec wire format, joined with single newlines. -/
theorem aggregate_matches_wire_format (st : AnalyzerState)
    (files : List FileEntry) (_hne : files ≠ [])
    (hall : ∀ f ∈ files, ∃ c, f.read = .ok c ∧ c ≠ "" ∧ utf8Len c ≤ 1024 * 1024) :
    (aggregateFileContents st files).1 =
      String.intercalate "\n" (files.map specBlock) := by
  rw [aggregateFileContents]
  rw [aggregateParts_eq_map files hall st]

/-- Witness for C1 at a concrete one-file list. -/
theorem aggregate_matches_wire_format_witness :
    ([(⟨⟨false, ["a.py"]⟩, .ok "print(1)"⟩ : FileEntry)] ≠ []) ∧
    (aggregateFileContents ⟨0, 0⟩ [⟨⟨false, ["a.py"]⟩, .ok "print(1)"⟩]).1 =
      String.intercalate "\n"
        ([(⟨⟨false, ["a.py"]⟩, .ok "print(1)"⟩ : FileEntry)].map specBlock) := by
  refine ⟨by simp, aggregate_matches_wire_format ⟨0, 0⟩ _ (by simp) ?_⟩
  intro f hf
  simp only [List.mem_singleton] at hf
  subst hf
  exact ⟨"print(1)", rfl, by decide, by decide⟩

/-- The current directory as pathlib sees it: relative, no components. -/
def rootDot : PyPath := ⟨false, []⟩

/-- A directory holding exactly one file a.py containing print(1). -/
def treeA : FSTree := .node .nil [("a.py", .ok "print(1)")]

/-- C2: scanning the current directory holding exactly one file a.py with
content print(1) aggregates exactly one block, labelled FILE: a.py and
LANGUAGE: Python, followed by the content, and counts one file of 8 bytes. -/
theorem single_file_scenario :
    analyzeCodebase ⟨0, 0⟩ rootDot (.dir treeA) =
      .ok ("\n" ++ delim80 ++ "\nFILE: a.py\nLANGUAGE: Python\n" ++ delim80 ++
        "\n\nprint(1)", ⟨1, 8⟩) := by
  set_option maxRecDepth 10000 in decide

/-- The bound used by the size ceiling, exceeded by one byte. -/
def bigA : String := String.mk (List.replicate (1024 * 1024 + 1) 'a')

/-- Folding UTF-8 sizes over n copies of the letter a counts n bytes. -/
theorem foldl_utf8_replicate (n : Nat) :
    ∀ k : Nat, List.foldl (fun m c => m + c.utf8Size) k (List.replicate n 'a') = k + n := by
  induction n with
  | zero => intro k; simp
  | succ n ih =>
    intro k
    rw [List.replicate_succ, List.foldl_cons, ih]
    have ha : ('a' : Char).utf8Size = 1 := by decide
    rw [ha]
    omega

/-- The UTF-8 length of n copies of the letter a is n. -/
theorem utf8Len_replicate (n : Nat) :
    utf8Len (String.mk (List.replicate n 'a')) = n := by
  rw [utf8Len]
  simpa using foldl_utf8_replicate n 0

/-- C3: a candidate file whose decoded content exceeds 1 MiB contributes
nothing to the aggregate, leaves both counters untouched, and the scan
continues with the remaining files: the whole result equals the result on
the list with that file removed. -/
theorem oversized_file_skipped (st : AnalyzerState)
    (pre post : List FileEntry) (p : PyPath) (c : String)
    (h : utf8Len c > 1024 * 1024) :
    aggregateFileContents st (pre ++ ⟨p, .ok c⟩ :: post) =
      aggregateFileContents st (pre ++ post) := by
  have key : ∀ (l : List FileEntry) (st' : AnalyzerState),
      aggregateParts st' (l ++ ⟨p, .ok c⟩ :: post) = aggregateParts st' (l ++ post) := by
    intro l
    induction l with
    | nil =>
      intro st'
      simp only [List.nil_append]
      rw [aggregateParts]
      simp [readFileContent, h]
    | cons f rest ih =>
      intro st'
      simp only [List.cons_append]
      rw [aggregateParts, aggregateParts]
      match hrf : readFileContent f.read with
      | none => exact ih st'
      | some content =>
        by_cases hc : content = ""
        · simp [hc, ih st']
        · simp [hc, ih]
  rw [aggregateFileContents, aggregateFileContents, key pre st]

/-- Witness for C3: a one-megabyte-plus-one-byte file placed before a small
file is dropped from the aggregation entirely. -/
theorem oversized_file_skipped_witness :
    utf8Len bigA > 1024 * 1024 ∧
    aggregateFileContents ⟨0, 0⟩
        [⟨⟨false, ["big.py"]⟩, .ok bigA⟩, ⟨⟨false, ["a.py"]⟩, .ok "print(1)"⟩] =
      aggregateFileContents ⟨0, 0⟩ [⟨⟨false, ["a.py"]⟩, .ok "print(1)"⟩] := by
  have hb : utf8Len bigA > 1024 * 1024 := by
    rw [bigA, utf8Len_replicate]
    omega
  exact ⟨hb, oversized_file_skipped ⟨0, 0⟩ []
    [⟨⟨false, ["a.py"]⟩, .ok "print(1)"⟩] ⟨false, ["big.py"]⟩ bigA hb⟩

/-- Python str.startswith on the modelled strings. -/
def strStarts (s p : String) : Bool :=
  p.data.isPrefixOf s.data

/-- A prefix of a string is a prefix of any right extension of it. -/
theorem strStarts_append (a b p : String) (h : strStarts a p = true) :
    strStarts (a ++ b) p = true := by
  rw [strStarts, String.data_append]
  rw [strStarts] at h
  rw [List.isPrefixOf_iff_prefix] at *
  exact h.trans (List.prefix_append a.data b.data)

/-- C4: for every input string and every outcome of the remote call (a
response with truthy text, a response with falsy or missing text, a falsy
response, or a raised exception), get_suggestions returns a string that is
either the banner-wrapped response text or a failure message starting with
the cross-mark marker; as a total Lean function it can never raise. -/
theorem getSuggestions_always_returns_string (ctx : String) (o : ApiResponse) :
    (∃ t, getSuggestions ctx o = formatResponse t) ∨
      strStarts (getSuggestions ctx o) "❌" = true := by
  rw [getSuggestions, getSuggestionsCalls.eq_def]
  by_cases hctx : pyStrip ctx = ""
  · right
    simp [hctx, noContentMsg]
    decide
  · cases o with
    | resp t =>
      cases t with
      | none => right; simp [hctx, noResponseMsg]; decide
      | some s =>
        by_cases hs : s = ""
        · right; simp [hctx, hs, noResponseMsg]; decide
        · left; exact ⟨s, by simp [hctx, hs]⟩
    | noResp => right; simp [hctx, noResponseMsg]; decide
    | raised msg =>
      right
      have hbase : strStarts apiErrorPrefixMsg "❌" = true := by decide
      have h1 : strStarts (apiErrorPrefixMsg ++ msg) "❌" = true :=
        strStarts_append _ _ _ hbase
      simp only [hctx, if_neg, ite_false]
      by_cases hk : strContains (pyUpper msg) "API_KEY" = true
      · simp [hk]
        exact strStarts_append _ _ _ h1
      · by_cases hq : strContains (pyLower msg) "quota" = true
        · simp [hk, hq]
          exact strStarts_append _ _ _ h1
        · by_cases hn : strContains (pyLower msg) "network" = true
          · simp [hk, hq, hn]
            exact strStarts_append _ _ _ h1
          · simp [hk, hq, hn]
            exact h1

/-- C6: a context that is empty or whitespace-only makes get_suggestions
return the fixed no-content message without performing the network call,
whatever the remote outcome would have been. -/
theorem blank_context_short_circuit (ctx : String) (o : ApiResponse)
    (h : pyStrip ctx = "") :
    getSuggestionsCalls ctx o = (noContentMsg, 0) := by
  simp [getSuggestionsCalls, h]

/-- Witness for C6 at a whitespace-only context. -/
theorem blank_context_short_circuit_witness :
    pyStrip " \t\n" = "" ∧
    getSuggestionsCalls " \t\n" .noResp = (noContentMsg, 0) :=
  ⟨by decide, blank_context_short_circuit " \t\n" .noResp (by decide)⟩

/-- C5 as stated is false: an error text that contains quota but also
contains API_KEY gets the API-key hint, not the quota hint, because the
keyword checks are an if-elif chain tried in that order. -/
theorem quota_hint_counterexample :
    strContains (pyLower "API_KEY quota") "quota" = true ∧
    strContains (getSuggestions "code" (.raised "API_KEY quota")) quotaHint = false := by
  constructor
  · decide
  · set_option maxRecDepth 10000 in decide

/-- C5 amended: if the raised error text contains quota (case-insensitively)
and does not contain API_KEY, the returned string is the base error message
followed by the literal quota hint, the orchestrator still writes the
report file, and its content carries the returned string verbatim. -/
theorem quota_hint_and_report_written (st : AnalyzerState) (root : PyPath)
    (dirPath ts msg : String) (t : FSTree)
    (hq : strContains (pyLower msg) "quota" = true)
    (hk : strContains (pyUpper msg) "API_KEY" = false)
    (hst : pyStrip (aggregateFileContents st (findTree root t)).1 ≠ "") :
    getSuggestions (aggregateFileContents st (findTree root t)).1 (.raised msg) =
        (apiErrorPrefixMsg ++ msg) ++ quotaHint ∧
    runApp st root dirPath ⟨true, true, .dir t, .raised msg, .writeOk, ts⟩ =
        (0, some (reportContent ts dirPath
          (getSuggestions (aggregateFileContents st (findTree root t)).1 (.raised msg)))) ∧
    ∃ a b, reportContent ts dirPath
        (getSuggestions (aggregateFileContents st (findTree root t)).1 (.raised msg)) =
      a ++ getSuggestions (aggregateFileContents st (findTree root t)).1 (.raised msg) ++ b := by
  rcases hA : aggregateFileContents st (findTree root t) with ⟨txt, st2⟩
  rw [hA] at hst
  simp only [hA]
  simp only at hst
  have hsugg : getSuggestions txt (.raised msg) = (apiErrorPrefixMsg ++ msg) ++ quotaHint := by
    rw [getSuggestions, getSuggestionsCalls.eq_def]
    simp [hst, hk, hq]
  have hne : txt ≠ "" := by
    intro hz
    apply hst
    rw [hz]
    decide
  have hagg : analyzeCodebase st root (.dir t) = .ok (txt, st2) := by
    rw [analyzeCodebase]
    by_cases he : (findTree root t).isEmpty
    · rw [if_pos he]
      rw [List.isEmpty_iff] at he
      rw [he] at hA
      rw [← hA]
      rfl
    · rw [if_neg he, hA]
  refine ⟨hsugg, ?_, ?_⟩
  · rw [runApp]
    simp only [hagg]
    simp [hne, saveSuggestionsToFile]
  · refine ⟨"Coding Assistant Analysis Report\n" ++ reportIndent ++ delim50 ++ "\n" ++
      reportIndent ++ "Generated: " ++ ts ++ "\n" ++ reportIndent ++
      "Analyzed Directory: " ++ dirPath ++ "\n" ++ reportIndent ++ delim50 ++ "\n\n" ++
      reportIndent,
      "\n\n" ++ reportIndent ++ delim50 ++ "\n" ++ reportIndent ++
      "End of Analysis Report\n" ++ reportIndent, ?_⟩
    rw [reportContent]
    apply String.ext
    simp [String.data_append, List.append_assoc]

/-- Witness for the amended C5 on the one-file tree. -/
theorem quota_hint_and_report_written_witness :
    strContains (pyLower "quota exceeded") "quota" = true ∧
    strContains (pyUpper "quota exceeded") "API_KEY" = false ∧
    getSuggestions (aggregateFileContents ⟨0, 0⟩ (findTree rootDot treeA)).1
        (.raised "quota exceeded") =
      (apiErrorPrefixMsg ++ "quota exceeded") ++ quotaHint := by
  have hq : strContains (pyLower "quota exceeded") "quota" = true := by decide
  have hk : strContains (pyUpper "quota exceeded") "API_KEY" = false := by decide
  have hst : pyStrip (aggregateFileContents ⟨0, 0⟩ (findTree rootDot treeA)).1 ≠ "" := by
    set_option maxRecDepth 10000 in decide
  exact ⟨hq, hk,
    (quota_hint_and_report_written ⟨0, 0⟩ rootDot "." "ts" "quota exceeded" treeA hq hk hst).1⟩

mutual

/-- Every file the walk collects from a tree sits under a chain of
subdirectory names none of which is in the ignore set, and its path is the
root followed by that chain and the file name. -/
theorem mem_findTree_chain (root : PyPath) (t : FSTree) (f : FileEntry)
    (hf : f ∈ findTree root t) :
    ∃ chain name, f.path.comps = root.comps ++ chain ++ [name] ∧
      ∀ d ∈ chain, IGNORED_DIRECTORIES.contains d = false := by
  cases t with
  | node dirs files =>
    rw [findTree] at hf
    rcases List.mem_append.mp hf with h | h
    · rcases List.mem_filterMap.mp h with ⟨nf, _, heq⟩
      by_cases hs : SUPPORTED_EXTENSIONS.contains (pyLower (pySuffix nf.1))
      · rw [if_pos hs] at heq
        cases heq
        exact ⟨[], nf.1, by simp [pushPath], by simp⟩
      · rw [if_neg hs] at heq
        exact absurd heq (by simp)
    · exact mem_findDirs_chain root dirs f h

/-- The same statement for the pruned subdirectory loop. -/
theorem mem_findDirs_chain (root : PyPath) (ds : DirList) (f : FileEntry)
    (hf : f ∈ findDirs root ds) :
    ∃ chain name, f.path.comps = root.comps ++ chain ++ [name] ∧
      ∀ d ∈ chain, IGNORED_DIRECTORIES.contains d = false := by
  cases ds with
  | nil =>
    rw [findDirs] at hf
    exact absurd hf (List.not_mem_nil f)
  | cons name tree rest =>
    rw [findDirs] at hf
    by_cases hig : IGNORED_DIRECTORIES.contains name = true
    · rw [if_pos hig] at hf
      exact mem_findDirs_chain root rest f hf
    · rw [if_neg hig] at hf
      rcases List.mem_append.mp hf with h | h
      · obtain ⟨chain, nm, hc, hall⟩ := mem_findTree_chain (pushPath root name) tree f h
        refine ⟨name :: chain, nm, ?_, ?_⟩
        · rw [hc]
          simp [pushPath]
        · intro d hd
          rcases List.mem_cons.mp hd with hd | hd
          · rw [hd]
            exact Bool.not_eq_true _ ▸ (by simpa using hig)
          · exact hall d hd
      · exact mem_findDirs_chain root rest f h

end

/-- analyze_codebase returns exactly the aggregation of the found files
(also when the found list is empty, where both sides are the empty string
with unchanged counters). -/
theorem analyzeCodebase_eq_aggregate (st : AnalyzerState) (root : PyPath)
    (t : FSTree) :
    analyzeCodebase st root (.dir t) =
      .ok (aggregateFileContents st (findTree root t)) := by
  rw [analyzeCodebase]
  by_cases he : (findTree root t).isEmpty
  · rw [if_pos he]
    rw [List.isEmpty_iff] at he
    rw [he]
    rfl
  · rw [if_neg he]

/-- C7: the aggregated text is built from exactly the files the walk
collects, and every collected file lies on a directory chain that contains
no ignored name: no file beneath a directory whose base name is in the
ignore set can appear in the aggregate, regardless of its extension. -/
theorem ignored_dirs_never_aggregated (st : AnalyzerState) (root : PyPath)
    (t : FSTree) :
    analyzeCodebase st root (.dir t) =
      .ok (aggregateFileContents st (findTree root t)) ∧
    ∀ f ∈ findTree root t, ∃ chain name,
      f.path.comps = root.comps ++ chain ++ [name] ∧
      ∀ d ∈ chain, IGNORED_DIRECTORIES.contains d = false :=
  ⟨analyzeCodebase_eq_aggregate st root t,
   fun f hf => mem_findTree_chain root t f hf⟩

/-- A tree with an ignored node_modules directory, a regular subdirectory
and a top-level file, for the C7 witness. -/
def treeNested : FSTree :=
  .node (.cons "node_modules" (.node .nil [("x.js", .ok "1")])
    (.cons "srcd" (.node .nil [("b.py", .ok "p")]) .nil))
    [("a.py", .ok "print(1)")]

/-- Witness for C7: the file found under srcd decomposes along a chain
avoiding the ignore set. -/
theorem ignored_dirs_never_aggregated_witness :
    ∃ chain name,
      (⟨⟨false, ["srcd", "b.py"]⟩, .ok "p"⟩ : FileEntry).path.comps =
        rootDot.comps ++ chain ++ [name] ∧
      ∀ d ∈ chain, IGNORED_DIRECTORIES.contains d = false :=
  (ignored_dirs_never_aggregated ⟨0, 0⟩ rootDot treeNested).2
    ⟨⟨false, ["srcd", "b.py"]⟩, .ok "p"⟩
    (by set_option maxRecDepth 10000 in decide)

/-- C8: for a fixed directory tree the produced aggregated text does not
depend on the counters already accumulated on the analyzer instance, so a
second scan of the unchanged tree (whatever state the first left behind)
yields byte-identical text. -/
theorem scan_deterministic_in_state (st1 st2 : AnalyzerState) (root : PyPath)
    (t : FSTree) :
    (analyzeCodebase st1 root (.dir t)).map Prod.fst =
      (analyzeCodebase st2 root (.dir t)).map Prod.fst := by
  rw [analyzeCodebase_eq_aggregate, analyzeCodebase_eq_aggregate]
  simp only [Except.map]
  rw [aggregateFileContents, aggregateFileContents]
  simp only []
  rw [aggregateParts_fst_state (findTree root t) st1 st2]

/-- C9: when the environment checks pass and the analysis produced non-empty
text, a failure to write the report file is caught: the run still returns
exit code 0 (and no report content is persisted). -/
theorem save_failure_exit_zero (st : AnalyzerState) (root : PyPath)
    (dirPath : String) (env : RunEnv) (t : FSTree) (m : String)
    (hk : env.apiKeyOk = true) (hv : env.apiValid = true)
    (hd : env.status = .dir t)
    (hne : (aggregateFileContents st (findTree root t)).1 ≠ "")
    (hs : env.save = .writeFailed m) :
    runApp st root dirPath env = (0, none) := by
  rcases hA : aggregateFileContents st (findTree root t) with ⟨txt, st2⟩
  rw [hA] at hne
  simp only at hne
  rw [runApp, hk, hv, hd, analyzeCodebase_eq_aggregate, hA]
  simp [hne, hs, saveSuggestionsToFile]

/-- Witness for C9 on the one-file tree with a failing disk write. -/
theorem save_failure_exit_zero_witness :
    runApp ⟨0, 0⟩ rootDot "."
      ⟨true, true, .dir treeA, .resp (some "fine"), .writeFailed "disk full", "ts"⟩ =
      (0, none) :=
  save_failure_exit_zero ⟨0, 0⟩ rootDot "."
    ⟨true, true, .dir treeA, .resp (some "fine"), .writeFailed "disk full", "ts"⟩
    treeA "disk full" rfl rfl rfl
    (by set_option maxRecDepth 10000 in decide) rfl

/-- C10: building the configuration fails exactly when the variable is unset
or the empty string; any other value passes the presence check and the
stored credential is the stripped value, which for a whitespace-only value
is the empty string. -/
theorem api_key_presence_and_strip :
    (∀ v, (getGeminiApiKey v).isOk = false ↔ v = none ∨ v = some "") ∧
    (∀ s, s ≠ "" → getGeminiApiKey (some s) = .ok (pyStrip s)) ∧
    (∀ s, (∀ c ∈ s.data, pyWhitespaceChar c = true) → pyStrip s = "") := by
  refine ⟨?_, ?_, ?_⟩
  · intro v
    cases v with
    | none => simp [getGeminiApiKey, Except.isOk, Except.toBool]
    | some k =>
      by_cases hk : k = ""
      · simp [getGeminiApiKey, hk, Except.isOk, Except.toBool]
      · simp [getGeminiApiKey, hk, Except.isOk, Except.toBool]
  · intro s hs
    simp [getGeminiApiKey, hs]
  · intro s hall
    rw [pyStrip]
    rw [List.dropWhile_eq_nil_iff.mpr (fun c hc => hall c hc)]
    rfl

/-- Witness for C10: a whitespace-only value is accepted and stripped to the
empty string. -/
theorem api_key_presence_and_strip_witness :
    getGeminiApiKey (some "   ") = .ok (pyStrip "   ") ∧ pyStrip "   " = "" :=
  ⟨api_key_presence_and_strip.2.1 "   " (by decide),
   api_key_presence_and_strip.2.2 "   " (by decide)⟩

end LlmLinter
